import Mathlib

/-!
Shallow embedding of the configuration-management REST service
(`src/practica3/api/server.js` and the Sequelize models
`models/Environment.js`, `models/Variable.js`).

The relational store is modelled as an explicit `DB` state (two tables as
lists plus the surrogate-id sequences).  Each HTTP handler becomes a pure
function from the current `DB` and the request data to a response (status
code plus payload) and the next `DB`.  Constraints declared on the models
(`allowNull: false`, `unique: true`, the composite unique index on
`(environment_id, name)`) are enforced by the store, so the embedding checks
them where Sequelize would and routes the failure to the 400 branch of the
corresponding handler, exactly as the handlers' `catch` blocks do.  The one
exception is an environment create with the name missing, where the model's
custom name setter crashes on `undefined` before validation and the request
reaches the global error handler instead (see `createEnvironment`).
-/

namespace ConfigService

/-- Models JavaScript `String.prototype.toUpperCase` (character-wise
upper-casing), used by the `set()` hook of `Environment.name`. -/
def jsToUpper (s : String) : String := ⟨s.data.map Char.toUpper⟩

/-- Models JavaScript `String.prototype.toLowerCase`, used by the
`findEnvironment` middleware before its `.endsWith('.json')` test. -/
def jsToLower (s : String) : String := ⟨s.data.map Char.toLower⟩

/-- The five characters of the literal `'.json'`. -/
def jsonExtChars : List Char := ['.', 'j', 's', 'o', 'n']

/-- Models `env_name.toLowerCase().endsWith('.json')` from the
`findEnvironment` middleware (server.js line 49). -/
def endsWithJsonCI (s : String) : Bool :=
  decide (5 ≤ s.data.length) &&
    ((jsToLower s).data.drop (s.data.length - 5) == jsonExtChars)

/-- Models the suffix strip
`env_name.substring(0, env_name.length - 5)` guarded by
`endsWithJsonCI` (server.js lines 49-51). -/
def stripJsonExt (s : String) : String :=
  if endsWithJsonCI s then ⟨s.data.take (s.data.length - 5)⟩ else s

/-- The full name normalization of the `findEnvironment` middleware:
strip a trailing `.json` (case-insensitively), then upper-case
(server.js lines 49-54). -/
def normalizeEnvName (s : String) : String := jsToUpper (stripJsonExt s)

/-- A row of the `environments` table (models/Environment.js).
Timestamps are omitted: no claim mentions them and no handler reads them. -/
structure Env where
  id : Nat
  name : String
  description : Option String
  deriving DecidableEq

/-- A row of the `variables` table (models/Variable.js). -/
structure Variable where
  id : Nat
  name : String
  value : String
  description : Option String
  is_sensitive : Bool
  environment_id : Nat
  deriving DecidableEq

/-- The relational store: both tables plus the surrogate-id sequences. -/
structure DB where
  envs : List Env
  vars : List Variable
  nextEnvId : Nat
  nextVarId : Nat
  deriving DecidableEq

/-- Store-enforced invariants: unique `environments.name`
(`unique: true` on the model), unique primary keys, the composite unique
index on `(environment_id, name)` (models/Variable.js lines 34-39), and
freshness of the id sequences. -/
def WF (db : DB) : Prop :=
  db.envs.Pairwise (fun a b => a.name ≠ b.name) ∧
  db.envs.Pairwise (fun a b => a.id ≠ b.id) ∧
  db.vars.Pairwise (fun a b => a.id ≠ b.id) ∧
  db.vars.Pairwise (fun a b => a.environment_id ≠ b.environment_id ∨ a.name ≠ b.name) ∧
  (∀ e ∈ db.envs, e.id < db.nextEnvId) ∧
  (∀ v ∈ db.vars, v.id < db.nextVarId)

instance (db : DB) : Decidable (WF db) := by
  unfold WF; infer_instance

/-- The `findEnvironment` middleware (server.js lines 44-69): strip a
trailing `.json`, upper-case, then `Environment.findOne({ where: { name } })`.
`none` models the 404 branch. -/
def findEnvironment (db : DB) (env_name : String) : Option Env :=
  db.envs.find? (fun e => e.name == normalizeEnvName env_name)

/-- The variables owned by one environment (the `hasMany` association
fetch / the `where: { environment_id }` filter). -/
def varsOf (db : DB) (envId : Nat) : List Variable :=
  db.vars.filter (fun v => v.environment_id == envId)

/-- The `findVariable` middleware (server.js lines 284-302): exact-name
lookup scoped to the already-resolved environment. -/
def findVariable (db : DB) (envId : Nat) (var_name : String) : Option Variable :=
  db.vars.find? (fun v => v.environment_id == envId && v.name == var_name)

/-- JavaScript object assignment `acc[k] = v`: overwrite in place if the
key exists, otherwise append the new key. -/
def objSet (o : List (String × String)) (k v : String) : List (String × String) :=
  if o.any (fun p => p.1 == k) then
    o.map (fun p => if p.1 == k then (k, v) else p)
  else o ++ [(k, v)]

/-- The flattening reduce of the massive-consumption endpoint
(server.js lines 97-100): `variables.reduce((acc, v) => acc[v.name] = v.value)`
starting from `{}`.  The JSON object is modelled as an association list. -/
def flatConfig (vars : List Variable) : List (String × String) :=
  vars.foldl (fun acc v => objSet acc v.name v.value) []

/-- The handler of `GET /environments/:env_name.json`
(server.js lines 86-106): resolve the environment, fetch its variables with
`attributes: ['name','value']`, flatten, respond 200; 404 when the
middleware finds no environment. -/
def flattenedEndpoint (db : DB) (env_name : String) :
    Nat × Option (List (String × String)) :=
  match findEnvironment db env_name with
  | none => (404, none)
  | some env => (200, some (flatConfig (varsOf db env.id)))

/-- The handler of `POST /environments/` (server.js lines 140-159).
A duplicate of the upper-cased name violates `unique: true`, a
store-reported failure the handler's `catch` maps to 400.  When `name` is
absent from the body, the handler still passes a `name` key holding
`undefined` to `Environment.create`, so the model's `set()` hook
(Environment.js lines 11-14) runs `value.toUpperCase()` on `undefined`
and throws a `TypeError` before any `allowNull` validation; the `catch`
at server.js line 154 matches only the two Sequelize error names, so the
request falls through `next(error)` to the global handler and responds
500.  On success the `set()` hook has upper-cased the stored name. -/
def createEnvironment (db : DB) (name : Option String)
    (description : Option String) : (Nat × Option Env) × DB :=
  match name with
  | none => ((500, none), db)
  | some n =>
    let stored := jsToUpper n
    if db.envs.any (fun e => e.name == stored) then ((400, none), db)
    else
      let env : Env := { id := db.nextEnvId, name := stored, description }
      ((201, some env),
       { db with envs := db.envs ++ [env], nextEnvId := db.nextEnvId + 1 })

/-- The handler of `GET /environments/:env_name` (server.js lines 163-169):
the middleware result, as a response. -/
def environmentDetailEndpoint (db : DB) (env_name : String) : Nat × Option Env :=
  match findEnvironment db env_name with
  | none => (404, none)
  | some env => (200, some env)

/-- The handler of `DELETE /environments/:env_name`
(server.js lines 216-224): destroy the row; `onDelete: 'CASCADE'` on the
`hasMany` association (server.js lines 20-24) also removes every variable
referencing the environment id.  Responds 204, or 404 from the middleware. -/
def deleteEnvironmentHandler (db : DB) (env_name : String) : Nat × DB :=
  match findEnvironment db env_name with
  | none => (404, db)
  | some env =>
    (204, { db with envs := db.envs.filter (fun e => e.id != env.id),
                    vars := db.vars.filter (fun v => v.environment_id != env.id) })

/-- The handler of `GET /environments/:env_name/variables/:var_name`
(server.js lines 308-313): both middlewares then a 200 detail. -/
def variableDetailEndpoint (db : DB) (env_name var_name : String) :
    Nat × Option Variable :=
  match findEnvironment db env_name with
  | none => (404, none)
  | some env =>
    match findVariable db env.id var_name with
    | none => (404, none)
    | some v => (200, some v)

/-- A JSON request body for the environment endpoints: `none` on a field
models the key being absent from the body (`undefined`). -/
structure EnvBody where
  name : Option String
  description : Option (Option String)

/-- The handler of `PATCH /environments/:env_name`
(server.js lines 195-212): updates `description` only when the key is
present in the body (`req.body.description !== undefined`); every other
body field is ignored and the name never changes. -/
def patchEnvironment (db : DB) (env : Env) (body : EnvBody) : (Nat × Env) × DB :=
  match body.description with
  | none => ((200, env), db)
  | some d =>
    let env' : Env := { env with description := d }
    ((200, env'),
     { db with envs := db.envs.map (fun e => if e.id == env.id then env' else e) })

/-- A JSON request body for the variable endpoints: `none` on a field
models the key being absent (`undefined`).  `description` distinguishes an
absent key from an explicit `null`. -/
structure VarBody where
  name : Option String
  value : Option String
  description : Option (Option String)
  is_sensitive : Option Bool
  environment_id : Option Nat

/-- The handler of `POST /environments/:env_name/variables`
(server.js lines 259-281): `name` and `value` are `allowNull: false`, so a
missing one is a store validation failure mapped to 400; a duplicate of
`(environment_id, name)` violates the composite unique index, also 400.
`is_sensitive` defaults to `false` when absent. -/
def createVariable (db : DB) (env : Env) (body : VarBody) :
    (Nat × Option Variable) × DB :=
  match body.name, body.value with
  | some n, some v =>
    if db.vars.any (fun w => w.environment_id == env.id && w.name == n) then
      ((400, none), db)
    else
      let nv : Variable :=
        { id := db.nextVarId, name := n, value := v,
          description := body.description.getD none,
          is_sensitive := body.is_sensitive.getD false,
          environment_id := env.id }
      ((201, some nv),
       { db with vars := db.vars ++ [nv], nextVarId := db.nextVarId + 1 })
  | _, _ => ((400, none), db)

/-- The row a successful variable create inserts (the argument of
`Variable.create` in the POST handler, server.js lines 263-269). -/
def newVarRow (db : DB) (env : Env) (b : VarBody) (n v : String) : Variable :=
  { id := db.nextVarId, name := n, value := v,
    description := b.description.getD none,
    is_sensitive := b.is_sensitive.getD false,
    environment_id := env.id }

/-- The merged row the variable PUT handler writes
(server.js lines 322-327): each field present in the body overwrites, each
absent field defaults to the current value; `environment_id` is not part of
the update object, so it never changes. -/
def putMerge (vr : Variable) (body : VarBody) : Variable :=
  { vr with
    name := body.name.getD vr.name,
    value := body.value.getD vr.value,
    description := (body.description.getD vr.description),
    is_sensitive := body.is_sensitive.getD vr.is_sensitive }

/-- The row the variable PATCH handler writes
(server.js line 346, `req.variable.update(req.body)`): every field present
in the body is applied, `name` and `environment_id` included. -/
def patchMerge (vr : Variable) (body : VarBody) : Variable :=
  { putMerge vr body with
    environment_id := body.environment_id.getD vr.environment_id }

/-- Saving an updated variable row: the store rejects the write (the
handler's 400 branch) when another row would collide on the composite
unique index, otherwise the row is replaced in place. -/
def saveVariable (db : DB) (vr v' : Variable) : (Nat × Option Variable) × DB :=
  if db.vars.any (fun w =>
      w.id != vr.id && w.environment_id == v'.environment_id && w.name == v'.name) then
    ((400, none), db)
  else
    ((200, some v'),
     { db with vars := db.vars.map (fun w => if w.id == vr.id then v' else w) })

/-- The handler of `PUT /environments/:env_name/variables/:var_name`
(server.js lines 317-339). -/
def putVariable (db : DB) (vr : Variable) (body : VarBody) :
    (Nat × Option Variable) × DB :=
  saveVariable db vr (putMerge vr body)

/-- The handler of `PATCH /environments/:env_name/variables/:var_name`
(server.js lines 343-358). -/
def patchVariable (db : DB) (vr : Variable) (body : VarBody) :
    (Nat × Option Variable) × DB :=
  saveVariable db vr (patchMerge vr body)

/-- The handler of `DELETE /environments/:env_name/variables/:var_name`
(server.js lines 362-369): destroy the single row, respond 204. -/
def deleteVariableHandler (db : DB) (vr : Variable) : Nat × DB :=
  (204, { db with vars := db.vars.filter (fun w => w.id != vr.id) })

/-- The digit prefix of a character list. -/
def takeDigits (l : List Char) : List Char := l.takeWhile (fun c => c.isDigit)

/-- The numeric value of a digit list. -/
def digitsToNat (l : List Char) : Nat :=
  l.foldl (fun a c => a * 10 + (c.toNat - 48)) 0

/-- Models JavaScript `parseInt(s)` on the query strings the handlers see:
skip leading spaces, an optional sign, then the decimal-digit prefix;
`none` models `NaN` (no digits). -/
def jsParseInt (s : String) : Option Int :=
  match s.data.dropWhile (fun c => c == ' ') with
  | '-' :: rest =>
    let ds := takeDigits rest
    if ds.isEmpty then none else some (-(digitsToNat ds : Int))
  | '+' :: rest =>
    let ds := takeDigits rest
    if ds.isEmpty then none else some (digitsToNat ds)
  | l =>
    let ds := takeDigits l
    if ds.isEmpty then none else some (digitsToNat ds)

/-- Models `parseInt(req.query.x) || d` (server.js lines 117-118): the
default is taken when the query parameter is absent (`parseInt(undefined)`
is `NaN`), non-numeric (`NaN`), or parses to `0` (falsy). -/
def intQueryParam (q : Option String) (d : Int) : Int :=
  match q with
  | none => d
  | some s =>
    match jsParseInt s with
    | none => d
    | some n => if n = 0 then d else n

/-- Character-list comparison backing the `name ASC` ordering. -/
def charListLe : List Char → List Char → Bool
  | [], _ => true
  | _ :: _, [] => false
  | a :: as, b :: bs =>
    if a.toNat < b.toNat then true
    else if b.toNat < a.toNat then false
    else charListLe as bs

/-- The `ORDER BY name ASC` of the list handlers, as a stable insertion
sort on the stored rows. -/
def insertByName (e : Env) : List Env → List Env
  | [] => [e]
  | x :: xs =>
    if charListLe e.name.data x.name.data then e :: x :: xs
    else x :: insertByName e xs

/-- Sorting the `environments` table by name ascending. -/
def sortByName : List Env → List Env
  | [] => []
  | x :: xs => insertByName x (sortByName xs)

/-- `Math.ceil(count / limit)` for the positive limits the handlers are
exercised with (the default is 10). -/
def totalPages (count : Nat) (limit : Int) : Int :=
  if 0 < limit then ((count + limit.toNat - 1) / limit.toNat : Nat) else 0

/-- The paginated response shape of `GET /environments/`
(server.js lines 127-132). -/
structure PageResult (α : Type) where
  status : Nat
  total_items : Nat
  total_pages : Int
  current_page : Int
  items : List α
  deriving DecidableEq

/-- The handler of `GET /environments/` (server.js lines 115-136):
`page`/`limit` from the query with defaults 1/10, `offset = (page-1)*limit`,
then `findAndCountAll` with `ORDER BY name ASC`.  The slice models the SQL
`LIMIT/OFFSET` for the non-negative offsets the handler is exercised with. -/
def listEnvironments (db : DB) (pageQ limitQ : Option String) : PageResult Env :=
  let page := intQueryParam pageQ 1
  let limit := intQueryParam limitQ 10
  let off := (page - 1) * limit
  let rows := ((sortByName db.envs).drop off.toNat).take limit.toNat
  { status := 200,
    total_items := db.envs.length,
    total_pages := totalPages db.envs.length limit,
    current_page := page,
    items := rows }

/-- A thrown JavaScript `Error` as the centralized handler sees it:
a `message` and a `stack`. -/
structure JsError where
  message : String
  stack : String
  deriving DecidableEq

/-- The JSON body (plus status) produced by the global error handler. -/
structure ErrResponse where
  status : Nat
  error : String
  message : String
  details : Option String
  deriving DecidableEq

/-- The global error handler middleware (server.js lines 379-387): logs the
stack server-side, then responds 500 with a fixed `error`, a fixed generic
`message`, and `details: err.message`. -/
def globalErrorHandler (e : JsError) : ErrResponse :=
  { status := 500,
    error := "Internal Server Error",
    message := "An unexpected error occurred on the server side.",
    details := some e.message }

/-! Concrete fixtures used to exercise the theorems below. -/

/-- An environment named `E`. -/
def envE : Env := { id := 1, name := "E", description := none }

/-- A store holding environment `E` with variables `A = 1` and `B = 2`. -/
def dbE : DB :=
  { envs := [envE],
    vars := [{ id := 1, name := "A", value := "1", description := none,
               is_sensitive := false, environment_id := 1 },
             { id := 2, name := "B", value := "2", description := none,
               is_sensitive := false, environment_id := 1 }],
    nextEnvId := 2, nextVarId := 3 }

/-- An empty store. -/
def dbEmpty : DB := { envs := [], vars := [], nextEnvId := 0, nextVarId := 0 }

/-- A store holding two environments and no variables. -/
def dbTwoEnvs : DB :=
  { envs := [{ id := 1, name := "DEV", description := none },
             { id := 2, name := "PROD", description := none }],
    vars := [], nextEnvId := 3, nextVarId := 0 }

/-- A request body creating variable `DB_URL`. -/
def bodyDbUrl : VarBody :=
  { name := some "DB_URL", value := some "x", description := none,
    is_sensitive := none, environment_id := none }

/-- A store with fifteen environments. -/
def db15 : DB :=
  { envs := (List.range 15).map
      (fun i => { id := i, name := "E" ++ toString i, description := none }),
    vars := [], nextEnvId := 15, nextVarId := 0 }

/-- A store whose single environment under id 2 owns variable `OLD`. -/
def dbPatch : DB :=
  { envs := [{ id := 2, name := "P", description := none }],
    vars := [{ id := 7, name := "OLD", value := "v", description := none,
               is_sensitive := false, environment_id := 2 }],
    nextEnvId := 3, nextVarId := 8 }

/-- The variable `OLD` of `dbPatch`. -/
def varOld : Variable :=
  { id := 7, name := "OLD", value := "v", description := none,
    is_sensitive := false, environment_id := 2 }

/-- A body renaming a variable to `NEW`. -/
def bodyRename : VarBody :=
  { name := some "NEW", value := none, description := none,
    is_sensitive := none, environment_id := none }

/-- An empty request body (no keys). -/
def bodyEmptyVar : VarBody :=
  { name := none, value := none, description := none,
    is_sensitive := none, environment_id := none }

/-- A store holding environments named `CONFIG.JSON` and `CONFIG`. -/
def dbJson : DB :=
  { envs := [{ id := 1, name := "CONFIG.JSON", description := none },
             { id := 2, name := "CONFIG", description := none }],
    vars := [], nextEnvId := 3, nextVarId := 0 }

/-- The environment named `CONFIG.JSON` of `dbJson`. -/
def envJson : Env := { id := 1, name := "CONFIG.JSON", description := none }

/-! General-purpose lemmas shared by the claim theorems. -/

theorem find?_append_of_forall_false {α : Type} (p : α → Bool) (l1 l2 : List α)
    (h : ∀ x ∈ l1, p x = false) : (l1 ++ l2).find? p = l2.find? p := by
  induction l1 with
  | nil => rfl
  | cons a as ih =>
    simp only [List.cons_append, List.find?]
    rw [h a (by simp)]
    exact ih (fun x hx => h x (by simp [hx]))

theorem foldl_objSet_eq (vars : List Variable) (acc : List (String × String))
    (hacc : ∀ v ∈ vars, ∀ p ∈ acc, p.1 ≠ v.name)
    (hnd : vars.Pairwise (fun a b => a.name ≠ b.name)) :
    vars.foldl (fun a v => objSet a v.name v.value) acc
      = acc ++ vars.map (fun v => (v.name, v.value)) := by
  induction vars generalizing acc with
  | nil => simp
  | cons v vs ih =>
    have hnotin : (acc.any (fun p => p.1 == v.name)) = false := by
      rw [List.any_eq_false]
      intro p hp
      simp only [beq_iff_eq]
      exact hacc v (by simp) p hp
    have hstep : objSet acc v.name v.value = acc ++ [(v.name, v.value)] := by
      unfold objSet
      rw [hnotin]
      simp
    rw [List.foldl_cons, hstep]
    rw [ih (acc ++ [(v.name, v.value)]) ?_ (List.Pairwise.of_cons hnd)]
    · simp
    · intro w hw p hp
      rcases List.mem_append.mp hp with hpa | hpv
      · exact hacc w (by simp [hw]) p hpa
      · have hp1 : p.1 = v.name := by
          simp only [List.mem_singleton] at hpv
          rw [hpv]
        rw [hp1]
        exact (List.pairwise_cons.mp hnd).1 w hw

theorem varsOf_names_pairwise (db : DB) (h : WF db) (envId : Nat) :
    (varsOf db envId).Pairwise (fun a b => a.name ≠ b.name) := by
  have h4 := h.2.2.2.1
  have hf := h4.filter (fun v => v.environment_id == envId)
  refine hf.imp_of_mem ?_
  intro a b ha hb hr
  have ha' : a.environment_id = envId := beq_iff_eq.mp (List.mem_filter.mp ha).2
  have hb' : b.environment_id = envId := beq_iff_eq.mp (List.mem_filter.mp hb).2
  rcases hr with h1 | h2
  · exact absurd (ha'.trans hb'.symm) h1
  · exact h2

/-- Under the composite uniqueness invariant, a row is the only holder of
its `(environment_id, name)` key. -/
theorem key_unique (db : DB) (h : WF db) (vr : Variable) (hmem : vr ∈ db.vars)
    (w : Variable) (hw : w ∈ db.vars) (hid : w.id ≠ vr.id)
    (henv : w.environment_id = vr.environment_id) : w.name ≠ vr.name := by
  have h4 := h.2.2.2.1
  have hsym : Symmetric (fun a b : Variable =>
      a.environment_id ≠ b.environment_id ∨ a.name ≠ b.name) := by
    intro a b hab
    rcases hab with h1 | h2
    · exact Or.inl h1.symm
    · exact Or.inr h2.symm
  have hne : w ≠ vr := fun hwv => hid (by rw [hwv])
  have := h4.forall hsym hw hmem hne
  rcases this with h1 | h2
  · exact absurd henv h1
  · exact h2

/-- C1.  For every environment, the flattening endpoint returns a JSON
object whose keys are exactly the names of the environment's variables,
each mapped to its value string, with no other keys and no metadata. -/
theorem flattened_endpoint_exact (db : DB) (h : WF db) (env : Env) (ename : String)
    (hfound : findEnvironment db ename = some env) :
    flattenedEndpoint db ename
      = (200, some ((varsOf db env.id).map (fun v => (v.name, v.value)))) := by
  unfold flattenedEndpoint
  rw [hfound]
  dsimp only
  have := foldl_objSet_eq (varsOf db env.id) [] (by simp)
    (varsOf_names_pairwise db h env.id)
  unfold flatConfig
  rw [this]
  simp

/-- C1 witness: with variables `{(A,1),(B,2)}` under environment `E`, the
flattened endpoint returns exactly `{"A":"1","B":"2"}`. -/
theorem flattened_endpoint_exact_witness :
    flattenedEndpoint dbE "E" = (200, some [("A", "1"), ("B", "2")]) :=
  (flattened_endpoint_exact dbE (by decide) envE "E" (by decide)).trans (by decide)

/-- C2.  Deleting an environment that owns N variables removes the
environment and all N variables: afterwards zero variable rows reference
the environment id, any variable lookup under that environment name is
NotFound (404), and the delete responds 204. -/
theorem cascade_delete_clears (db : DB) (h : WF db) (ename : String) (env : Env)
    (hfound : findEnvironment db ename = some env) :
    (deleteEnvironmentHandler db ename).1 = 204
  ∧ ((deleteEnvironmentHandler db ename).2.vars.filter
        (fun v => v.environment_id == env.id)) = []
  ∧ ∀ vn, variableDetailEndpoint (deleteEnvironmentHandler db ename).2 ename vn
        = (404, none) := by
  have hfound' : db.envs.find? (fun e => e.name == normalizeEnvName ename) = some env :=
    hfound
  have hmem : env ∈ db.envs := List.mem_of_find?_eq_some hfound'
  have hname : env.name = normalizeEnvName ename := by
    have hp := List.find?_some hfound'
    simpa using hp
  unfold deleteEnvironmentHandler
  rw [hfound]
  dsimp only
  refine ⟨rfl, ?_, ?_⟩
  · rw [List.filter_eq_nil_iff]
    intro v hv
    have hv2 := (List.mem_filter.mp hv).2
    simp only [bne_iff_ne, ne_eq] at hv2
    simp only [beq_iff_eq]
    exact hv2
  · intro vn
    have hsym : Symmetric (fun a b : Env => a.name ≠ b.name) := by
      intro a b hab
      exact hab.symm
    have hnone : (db.envs.filter (fun e => e.id != env.id)).find?
        (fun e => e.name == normalizeEnvName ename) = none := by
      rw [List.find?_eq_none]
      intro x hx
      have hx1 := (List.mem_filter.mp hx).1
      have hx2 := (List.mem_filter.mp hx).2
      simp only [bne_iff_ne, ne_eq] at hx2
      have hne : x ≠ env := fun hxe => hx2 (by rw [hxe])
      have hd := (h.1).forall hsym hx1 hmem hne
      simp only [beq_iff_eq]
      rw [← hname]
      exact hd
    unfold variableDetailEndpoint findEnvironment
    dsimp only
    rw [hnone]

/-- C2 witness: deleting `E` from the two-variable store responds 204,
leaves no variable row under its id, and variable lookups then 404. -/
theorem cascade_delete_clears_witness :
    (deleteEnvironmentHandler dbE "E").1 = 204
  ∧ ((deleteEnvironmentHandler dbE "E").2.vars.filter
        (fun v => v.environment_id == envE.id)) = []
  ∧ variableDetailEndpoint (deleteEnvironmentHandler dbE "E").2 "E" "A" = (404, none) := by
  have h := cascade_delete_clears dbE (by decide) "E" envE (by decide)
  exact ⟨h.1, h.2.1, h.2.2 "A"⟩

/-- C3 (code bug).  Creating two environments whose names differ only in
letter case fails the second with a validation error (400), as claimed:
the names are upper-cased before persisting and collide on the unique
constraint.  But a create call with the name missing does not fail with a
validation error: the name setter crashes on `undefined` before the
`allowNull` check can fire, and the request 500s through the global
handler — contradicting the handler's own comment (server.js line 153,
400 Bad Request for a null or duplicate name). -/
theorem create_case_collision (db : DB) (n1 n2 : String) (d1 d2 : Option String)
    (hcase : jsToUpper n1 = jsToUpper n2) (env : Env) (db' : DB)
    (h1 : createEnvironment db (some n1) d1 = ((201, some env), db')) :
    (createEnvironment db' (some n2) d2).1.1 = 400
  ∧ ∀ d, (createEnvironment db none d).1.1 = 500 := by
  refine ⟨?_, fun d => rfl⟩
  simp only [createEnvironment] at h1 ⊢
  by_cases hg : db.envs.any (fun e => e.name == jsToUpper n1) = true
  · rw [if_pos hg] at h1
    simp at h1
  · rw [if_neg hg] at h1
    have hdb' : ({ db with
        envs := db.envs ++ [{ id := db.nextEnvId, name := jsToUpper n1,
                              description := d1 }],
        nextEnvId := db.nextEnvId + 1 } : DB) = db' :=
      congrArg Prod.snd h1
    subst hdb'
    rw [if_pos ?_]
    · rw [List.any_eq_true]
      refine ⟨{ id := db.nextEnvId, name := jsToUpper n1, description := d1 }, ?_, ?_⟩
      · simp
      · simp [hcase]

/-- C3 witness: creating `prod` then `PROD` 400s the second, and a create
with no name 500s through the global handler. -/
theorem create_case_collision_witness :
    (createEnvironment (createEnvironment dbEmpty (some "prod") none).2
        (some "PROD") none).1.1 = 400
  ∧ (createEnvironment dbEmpty none none).1.1 = 500 := by
  have h := create_case_collision dbEmpty "prod" "PROD" none none (by decide)
    { id := 0, name := "PROD", description := none }
    (createEnvironment dbEmpty (some "prod") none).2 (by decide)
  exact ⟨h.1, h.2 none⟩

theorem WF_createVariable (db : DB) (h : WF db) (env : Env) (b : VarBody) :
    WF (createVariable db env b).2 := by
  rcases hn : b.name with _ | n
  · cases hv : b.value <;> simp only [createVariable, hn, hv] <;> exact h
  · rcases hv : b.value with _ | v
    · simp only [createVariable, hn, hv]; exact h
    · simp only [createVariable, hn, hv]
      by_cases hg : db.vars.any (fun w => w.environment_id == env.id && w.name == n) = true
      · rw [if_pos hg]; exact h
      · rw [if_neg hg]
        have hgf : db.vars.any (fun w => w.environment_id == env.id && w.name == n)
            = false := by
          revert hg
          cases db.vars.any (fun w => w.environment_id == env.id && w.name == n) <;> simp
        have hnokey : ∀ w ∈ db.vars, w.environment_id ≠ env.id ∨ w.name ≠ n := by
          intro w hw
          have hp := List.any_eq_false.mp hgf w hw
          simp only [Bool.and_eq_true, beq_iff_eq, not_and] at hp
          rcases eq_or_ne w.environment_id env.id with he | he
          · exact Or.inr (hp he)
          · exact Or.inl he
        obtain ⟨h1, h2, h3, h4, h5, h6⟩ := h
        refine ⟨h1, h2, ?_, ?_, h5, ?_⟩
        · rw [List.pairwise_append]
          refine ⟨h3, by simp, ?_⟩
          intro x hx y hy
          simp only [List.mem_singleton] at hy
          subst hy
          exact Nat.ne_of_lt (h6 x hx)
        · rw [List.pairwise_append]
          refine ⟨h4, by simp, ?_⟩
          intro x hx y hy
          simp only [List.mem_singleton] at hy
          subst hy
          exact hnokey x hx
        · intro w hw
          rcases List.mem_append.mp hw with ho | hnew
          · exact Nat.lt_succ_of_lt (h6 w ho)
          · simp only [List.mem_singleton] at hnew
            subst hnew
            exact Nat.lt_succ_self _


theorem WF_saveVariable (db : DB) (h : WF db) (vr v' : Variable) (hid : v'.id = vr.id) :
    WF (saveVariable db vr v').2 := by
  unfold saveVariable
  by_cases hg : (db.vars.any (fun w =>
      w.id != vr.id && w.environment_id == v'.environment_id && w.name == v'.name)) = true
  · rw [if_pos hg]; exact h
  · rw [if_neg hg]
    have hgf : (db.vars.any (fun w =>
        w.id != vr.id && w.environment_id == v'.environment_id && w.name == v'.name))
        = false := by
      revert hg
      cases db.vars.any (fun w =>
        w.id != vr.id && w.environment_id == v'.environment_id && w.name == v'.name) <;> simp
    have hguard : ∀ w ∈ db.vars, w.id ≠ vr.id →
        w.environment_id ≠ v'.environment_id ∨ w.name ≠ v'.name := by
      intro w hw hwid
      have hp := List.any_eq_false.mp hgf w hw
      simp only [Bool.and_eq_true, bne_iff_ne, ne_eq, beq_iff_eq, not_and] at hp
      rcases eq_or_ne w.environment_id v'.environment_id with he | he
      · exact Or.inr (hp ⟨hwid, he⟩)
      · exact Or.inl he
    obtain ⟨h1, h2, h3, h4, h5, h6⟩ := h
    have hfid : ∀ w : Variable, ((if w.id == vr.id then v' else w) : Variable).id = w.id := by
      intro w
      by_cases hw : (w.id == vr.id) = true
      · rw [if_pos hw, hid]
        exact (beq_iff_eq.mp hw).symm
      · rw [if_neg hw]
    refine ⟨h1, h2, ?_, ?_, h5, ?_⟩
    · rw [List.pairwise_map]
      refine h3.imp ?_
      intro a b hab
      rw [hfid a, hfid b]
      exact hab
    · rw [List.pairwise_map]
      refine (h3.and h4).imp_of_mem ?_
      intro a b ha hb hab
      obtain ⟨hids, hkeys⟩ := hab
      by_cases haid : (a.id == vr.id) = true
      · have hbne : b.id ≠ vr.id := fun hb' =>
          hids ((beq_iff_eq.mp haid).trans hb'.symm)
        have hbid : ¬((b.id == vr.id) = true) := by simp [hbne]
        rw [if_pos haid, if_neg hbid]
        have hg2 := hguard b hb hbne
        rcases hg2 with h' | h'
        · exact Or.inl (fun he => h' he.symm)
        · exact Or.inr (fun he => h' he.symm)
      · rw [if_neg haid]
        by_cases hbid : (b.id == vr.id) = true
        · rw [if_pos hbid]
          exact hguard a ha (fun ha' => haid (beq_iff_eq.mpr ha'))
        · rw [if_neg hbid]
          exact hkeys
    · intro w hw
      rcases List.mem_map.mp hw with ⟨x, hx, hfx⟩
      rw [← hfx, hfid x]
      exact h6 x hx

theorem WF_putVariable (db : DB) (h : WF db) (vr : Variable) (b : VarBody) :
    WF (putVariable db vr b).2 :=
  WF_saveVariable db h vr (putMerge vr b) rfl

theorem WF_patchVariable (db : DB) (h : WF db) (vr : Variable) (b : VarBody) :
    WF (patchVariable db vr b).2 :=
  WF_saveVariable db h vr (patchMerge vr b) rfl

theorem WF_deleteVariable (db : DB) (h : WF db) (vr : Variable) :
    WF (deleteVariableHandler db vr).2 := by
  obtain ⟨h1, h2, h3, h4, h5, h6⟩ := h
  exact ⟨h1, h2, h3.filter _, h4.filter _, h5,
    fun v hv => h6 v (List.mem_filter.mp hv).1⟩

/-- C4.  The pair `(environment_id, name)` is unique over all variables and
the variable operations preserve this: creating the same variable name
under two different environments succeeds (201 twice), creating it a
second time under the same environment fails with a validation error
(400), and create/put/patch/delete all preserve the invariant. -/
theorem composite_unique_invariant (db : DB) (h : WF db) (env1 env2 : Env)
    (b : VarBody) (n v : String) (hn : b.name = some n) (hv : b.value = some v)
    (hne : env1.id ≠ env2.id)
    (h1 : ∀ w ∈ db.vars, ¬(w.environment_id = env1.id ∧ w.name = n))
    (h2 : ∀ w ∈ db.vars, ¬(w.environment_id = env2.id ∧ w.name = n)) :
    db.vars.Pairwise
      (fun a b => a.environment_id ≠ b.environment_id ∨ a.name ≠ b.name)
  ∧ (createVariable db env1 b).1.1 = 201
  ∧ (createVariable (createVariable db env1 b).2 env2 b).1.1 = 201
  ∧ (createVariable (createVariable db env1 b).2 env1 b).1.1 = 400
  ∧ (∀ db' env' b', WF db' → WF (createVariable db' env' b').2)
  ∧ (∀ db' vr b', WF db' → WF (putVariable db' vr b').2)
  ∧ (∀ db' vr b', WF db' → WF (patchVariable db' vr b').2)
  ∧ (∀ db' vr, WF db' → WF (deleteVariableHandler db' vr).2) := by
  have hg1 : db.vars.any (fun w => w.environment_id == env1.id && w.name == n)
      = false := by
    rw [List.any_eq_false]
    intro w hw
    simp only [Bool.and_eq_true, beq_iff_eq, not_and]
    intro he
    exact fun hname => h1 w hw ⟨he, hname⟩
  have hg1' : ¬(db.vars.any (fun w => w.environment_id == env1.id && w.name == n)
      = true) := by simp [hg1]
  have e1 : createVariable db env1 b
      = ((201, some (newVarRow db env1 b n v)),
         { db with
             vars := db.vars ++ [newVarRow db env1 b n v],
             nextVarId := db.nextVarId + 1 }) := by
    simp only [createVariable, hn, hv, newVarRow]
    rw [if_neg hg1']
  refine ⟨h.2.2.2.1, ?_, ?_, ?_,
    fun db' env' b' h' => WF_createVariable db' h' env' b',
    fun db' vr b' h' => WF_putVariable db' h' vr b',
    fun db' vr b' h' => WF_patchVariable db' h' vr b',
    fun db' vr h' => WF_deleteVariable db' h' vr⟩
  · rw [e1]
  · rw [e1]
    simp only [createVariable, hn, hv]
    rw [if_neg ?_]
    rw [List.any_eq_true]
    rintro ⟨w, hw, hwp⟩
    simp only [Bool.and_eq_true, beq_iff_eq] at hwp
    rcases List.mem_append.mp hw with ho | hnew
    · exact h2 w ho ⟨hwp.1, hwp.2⟩
    · simp only [List.mem_singleton] at hnew
      subst hnew
      exact hne (by simpa [newVarRow] using hwp.1)
  · rw [e1]
    simp only [createVariable, hn, hv]
    rw [if_pos ?_]
    rw [List.any_eq_true]
    refine ⟨newVarRow db env1 b n v, ?_, ?_⟩
    · simp
    · simp [newVarRow]

/-- C4 witness: `DB_URL` under `DEV` then under `PROD` both succeed, a
second `DB_URL` under `DEV` fails with 400. -/
theorem composite_unique_invariant_witness :
    (createVariable dbTwoEnvs { id := 1, name := "DEV", description := none }
        bodyDbUrl).1.1 = 201
  ∧ (createVariable
        (createVariable dbTwoEnvs { id := 1, name := "DEV", description := none }
          bodyDbUrl).2
        { id := 2, name := "PROD", description := none } bodyDbUrl).1.1 = 201
  ∧ (createVariable
        (createVariable dbTwoEnvs { id := 1, name := "DEV", description := none }
          bodyDbUrl).2
        { id := 1, name := "DEV", description := none } bodyDbUrl).1.1 = 400 := by
  have h := composite_unique_invariant dbTwoEnvs (by decide)
    { id := 1, name := "DEV", description := none }
    { id := 2, name := "PROD", description := none }
    bodyDbUrl "DB_URL" "x" (by decide) (by decide) (by decide)
    (by decide) (by decide)
  exact ⟨h.2.1, h.2.2.1, h.2.2.2.1⟩

/-- C5.  After creating an environment named `prod`, looking it up by
`PROD`, `Prod`, or the path segment `PROD.json` (the `.json` suffix is
stripped before lookup) all return the same stored record, never a
not-found result or a record named `PROD.json`. -/
theorem create_lookup_roundtrip (db : DB) (d : Option String) (env : Env) (db' : DB)
    (h : createEnvironment db (some "prod") d = ((201, some env), db')) :
    findEnvironment db' "PROD" = some env
  ∧ findEnvironment db' "Prod" = some env
  ∧ findEnvironment db' "PROD.json" = some env := by
  have hup : jsToUpper "prod" = "PROD" := by decide
  simp only [createEnvironment] at h
  by_cases hg : db.envs.any (fun e => e.name == jsToUpper "prod") = true
  · rw [if_pos hg] at h
    simp at h
  · rw [if_neg hg] at h
    have hgf : db.envs.any (fun e => e.name == jsToUpper "prod") = false := by
      revert hg
      cases db.envs.any (fun e => e.name == jsToUpper "prod") <;> simp
    have hpref : ∀ x ∈ db.envs, (x.name == ("PROD" : String)) = false := by
      intro x hx
      have hx' := List.any_eq_false.mp hgf x hx
      rw [hup] at hx'
      revert hx'
      cases x.name == ("PROD" : String) <;> simp
    injection h with hfst hsnd
    injection hfst with _ hsome
    injection hsome with henv
    subst henv
    subst hsnd
    have lookup : ∀ s : String, normalizeEnvName s = "PROD" →
        (db.envs ++ [(⟨db.nextEnvId, jsToUpper "prod", d⟩ : Env)]).find?
            (fun e => e.name == normalizeEnvName s)
          = some (⟨db.nextEnvId, jsToUpper "prod", d⟩ : Env) := by
      intro s hs
      rw [hs]
      rw [find?_append_of_forall_false _ _ _ hpref]
      simp [List.find?, hup]
    exact ⟨lookup "PROD" (by decide), lookup "Prod" (by decide),
      lookup "PROD.json" (by decide)⟩

/-- C5 witness: the three lookups after creating `prod` in the empty
store. -/
theorem create_lookup_roundtrip_witness :
    findEnvironment (createEnvironment dbEmpty (some "prod") none).2 "PROD"
      = some { id := 0, name := "PROD", description := none }
  ∧ findEnvironment (createEnvironment dbEmpty (some "prod") none).2 "Prod"
      = some { id := 0, name := "PROD", description := none }
  ∧ findEnvironment (createEnvironment dbEmpty (some "prod") none).2 "PROD.json"
      = some { id := 0, name := "PROD", description := none } :=
  create_lookup_roundtrip dbEmpty none { id := 0, name := "PROD", description := none }
    (createEnvironment dbEmpty (some "prod") none).2 (by decide)

/-- C6 counterexample: the 500 body is not free of raw internal error
text — the handler copies the exception's own message verbatim into its
`details` field (server.js line 385, `details: err.message`). -/
theorem error_handler_leaks_details :
    (globalErrorHandler
        { message := "connect ECONNREFUSED 127.0.0.1:5432",
          stack := "Error: connect ECONNREFUSED at TCPConnectWrap" }).details
      = some "connect ECONNREFUSED 127.0.0.1:5432" := rfl

/-- C6 amended: for every exception reaching the centralized handler the
response is a 500 whose `error` and `message` fields are fixed generic
strings and whose body never depends on (so never leaks) the stack trace,
but the body does include the raw exception message under `details`. -/
theorem error_handler_generic_shape (e : JsError) :
    (globalErrorHandler e).status = 500
  ∧ (globalErrorHandler e).error = "Internal Server Error"
  ∧ (globalErrorHandler e).message
      = "An unexpected error occurred on the server side."
  ∧ (globalErrorHandler e).details = some e.message
  ∧ ∀ st, globalErrorHandler { message := e.message, stack := st }
      = globalErrorHandler e :=
  ⟨rfl, rfl, rfl, rfl, fun _ => rfl⟩

/-- C7.  The variable PUT overwrites each field present in the body and
defaults each omitted field to its current value (merge, not replace),
never touching `environment_id`; the variable PATCH with only
`description` present leaves `name`, `value` and `is_sensitive`
unchanged. -/
theorem update_merge_semantics (db : DB) (h : WF db) (vr : Variable)
    (hmem : vr ∈ db.vars) (b : VarBody) (v' : Variable)
    (hput : (putVariable db vr b).1.2 = some v') :
    (b.name = none → v'.name = vr.name)
  ∧ (b.value = none → v'.value = vr.value)
  ∧ (b.description = none → v'.description = vr.description)
  ∧ (b.is_sensitive = none → v'.is_sensitive = vr.is_sensitive)
  ∧ (∀ x, b.name = some x → v'.name = x)
  ∧ (∀ x, b.value = some x → v'.value = x)
  ∧ v'.environment_id = vr.environment_id
  ∧ (∀ d, (patchVariable db vr
        { name := none, value := none, description := some d,
          is_sensitive := none, environment_id := none }).1
      = (200, some { vr with description := d })) := by
  have hv' : v' = putMerge vr b := by
    unfold putVariable saveVariable at hput
    by_cases hg : (db.vars.any (fun w =>
        w.id != vr.id && w.environment_id == (putMerge vr b).environment_id
          && w.name == (putMerge vr b).name)) = true
    · rw [if_pos hg] at hput
      simp at hput
    · rw [if_neg hg] at hput
      exact (Option.some_inj.mp hput).symm
  subst hv'
  refine ⟨?_, ?_, ?_, ?_, ?_, ?_, rfl, ?_⟩
  · intro hbn; simp [putMerge, hbn]
  · intro hbv; simp [putMerge, hbv]
  · intro hbd; simp [putMerge, hbd]
  · intro hbs; simp [putMerge, hbs]
  · intro x hbn; simp [putMerge, hbn]
  · intro x hbv; simp [putMerge, hbv]
  · intro d
    unfold patchVariable saveVariable
    rw [if_neg ?_]
    · rfl
    · rw [List.any_eq_true]
      rintro ⟨w, hw, hp⟩
      simp only [patchMerge, putMerge, Option.getD_none, Option.getD_some,
        Bool.and_eq_true, bne_iff_ne, ne_eq, beq_iff_eq] at hp
      exact key_unique db h vr hmem w hw hp.1.1 hp.1.2 hp.2

/-- C7 witness: patching only the description of `OLD` yields exactly the
description change, every other field untouched. -/
theorem update_merge_semantics_witness :
    (patchVariable dbPatch varOld
        { name := none, value := none, description := some (some "d"),
          is_sensitive := none, environment_id := none }).1
      = (200, some { varOld with description := some "d" }) :=
  (update_merge_semantics dbPatch (by decide) varOld (by decide)
    bodyEmptyVar varOld (by decide)).2.2.2.2.2.2.2 (some "d")

theorem length_insertByName (e : Env) (l : List Env) :
    (insertByName e l).length = l.length + 1 := by
  induction l with
  | nil => rfl
  | cons x xs ih =>
    unfold insertByName
    by_cases hc : charListLe e.name.data x.name.data = true
    · rw [if_pos hc]
      rfl
    · rw [if_neg hc]
      simp [ih]

theorem length_sortByName (l : List Env) : (sortByName l).length = l.length := by
  induction l with
  | nil => rfl
  | cons x xs ih =>
    unfold sortByName
    rw [length_insertByName, ih]
    rfl

/-- C8.  `page`/`limit` default to 1/10 when absent or non-numeric, and
with 15 stored environments and `limit=10`, page 1 holds exactly 10 items
with `total_pages = 2`, page 2 holds the remaining 5, and `total_items`
is 15 in both responses. -/
theorem pagination_boundaries (db : DB) (h15 : db.envs.length = 15) :
    (∀ pq lq : Option String, (∀ s, pq = some s → jsParseInt s = none) →
        (∀ s, lq = some s → jsParseInt s = none) →
        listEnvironments db pq lq = listEnvironments db (some "1") (some "10"))
  ∧ (listEnvironments db (some "1") (some "10")).items.length = 10
  ∧ (listEnvironments db (some "1") (some "10")).total_pages = 2
  ∧ (listEnvironments db (some "1") (some "10")).total_items = 15
  ∧ (listEnvironments db (some "1") (some "10")).current_page = 1
  ∧ (listEnvironments db (some "2") (some "10")).items.length = 5
  ∧ (listEnvironments db (some "2") (some "10")).total_items = 15
  ∧ (listEnvironments db (some "2") (some "10")).total_pages = 2
  ∧ (listEnvironments db (some "1") (some "10")).items
      ++ (listEnvironments db (some "2") (some "10")).items = sortByName db.envs := by
  have hp1 : intQueryParam (some "1") 1 = 1 := by decide
  have hp2 : intQueryParam (some "2") 1 = 2 := by decide
  have hl10 : intQueryParam (some "10") 10 = 10 := by decide
  have hlen : (sortByName db.envs).length = 15 := (length_sortByName _).trans h15
  refine ⟨?_, ?_, ?_, ?_, ?_, ?_, ?_, ?_, ?_⟩
  · intro pq lq hpq hlq
    have hpd : intQueryParam pq 1 = 1 := by
      cases pq with
      | none => rfl
      | some s => simp [intQueryParam, hpq s rfl]
    have hld : intQueryParam lq 10 = 10 := by
      cases lq with
      | none => rfl
      | some s => simp [intQueryParam, hlq s rfl]
    simp only [listEnvironments, hpd, hld, hp1, hl10]
  · simp only [listEnvironments, hp1, hl10]
    rw [List.length_take, List.length_drop, hlen]
    decide
  · simp only [listEnvironments, hl10]
    rw [h15]
    decide
  · simp only [listEnvironments]
    exact h15
  · simp only [listEnvironments, hp1]
  · simp only [listEnvironments, hp2, hl10]
    rw [List.length_take, List.length_drop, hlen]
    decide
  · simp only [listEnvironments]
    exact h15
  · simp only [listEnvironments, hl10]
    rw [h15]
    decide
  · simp only [listEnvironments, hp1, hp2, hl10]
    have h0 : Int.toNat ((1 - 1) * 10) = 0 := by decide
    have h10 : Int.toNat ((2 - 1) * 10) = 10 := by decide
    have htn : Int.toNat (10 : Int) = 10 := by decide
    rw [h0, h10, htn, List.drop_zero]
    rw [List.take_of_length_le (l := (sortByName db.envs).drop 10) (by
      rw [List.length_drop, hlen]
      decide)]
    exact List.take_append_drop 10 (sortByName db.envs)

/-- C8 witness: the boundary numbers on a concrete 15-environment store,
plus the default of absent `page`/`limit` to 1/10. -/
theorem pagination_boundaries_witness :
    listEnvironments db15 none none = listEnvironments db15 (some "1") (some "10")
  ∧ (listEnvironments db15 (some "1") (some "10")).items.length = 10
  ∧ (listEnvironments db15 (some "1") (some "10")).total_pages = 2
  ∧ (listEnvironments db15 (some "2") (some "10")).items.length = 5
  ∧ (listEnvironments db15 (some "2") (some "10")).total_items = 15 := by
  have h := pagination_boundaries db15 (by decide)
  exact ⟨h.1 none none (fun s hs => nomatch hs) (fun s hs => nomatch hs),
    h.2.1, h.2.2.1, h.2.2.2.2.2.1, h.2.2.2.2.2.2.1⟩

/-- C9.  The variable PATCH handler passes the whole request body to the
update, so a body holding `name` or `environment_id` really changes those
fields — a rename breaks the variable's URL (the old name no longer
resolves) and `environment_id` re-parents it — whereas the environment
PATCH handler applies only `description` and ignores every other body
field. -/
theorem patch_full_body_applied (db : DB) (h : WF db) (vr : Variable)
    (hmem : vr ∈ db.vars) (b : VarBody) (v' : Variable) (db' : DB)
    (hres : patchVariable db vr b = ((200, some v'), db')) :
    (∀ x, b.name = some x → v'.name = x)
  ∧ (∀ eid, b.environment_id = some eid → v'.environment_id = eid)
  ∧ (∀ x, b.name = some x → x ≠ vr.name →
        findVariable db' vr.environment_id vr.name = none)
  ∧ (∀ env body2, (patchEnvironment db env body2).1.2
        = { env with description := body2.description.getD env.description }) := by
  have hguard : ¬((db.vars.any (fun w =>
      w.id != vr.id && w.environment_id == (patchMerge vr b).environment_id
        && w.name == (patchMerge vr b).name)) = true) := by
    intro hg
    unfold patchVariable saveVariable at hres
    rw [if_pos hg] at hres
    simp at hres
  have hres' : ((200, some (patchMerge vr b)),
      ({ db with
           vars := db.vars.map
             (fun w => if w.id == vr.id then patchMerge vr b else w) } : DB))
      = ((200, some v'), db') := by
    unfold patchVariable saveVariable at hres
    rw [if_neg hguard] at hres
    exact hres
  injection hres' with hfst hsnd
  injection hfst with _ hsome
  injection hsome with hv'
  subst hv'
  subst hsnd
  refine ⟨?_, ?_, ?_, ?_⟩
  · intro x hbn
    simp [patchMerge, putMerge, hbn]
  · intro eid hbe
    simp [patchMerge, putMerge, hbe]
  · intro x hbn hne
    have hxname : (patchMerge vr b).name = x := by
      simp [patchMerge, putMerge, hbn]
    unfold findVariable
    rw [List.find?_eq_none]
    intro w' hw'
    rcases List.mem_map.mp hw' with ⟨w, hw, hfw⟩
    subst hfw
    by_cases hwid : (w.id == vr.id) = true
    · rw [if_pos hwid]
      simp only [Bool.and_eq_true, beq_iff_eq, not_and, hxname]
      intro _
      exact hne
    · rw [if_neg hwid]
      simp only [Bool.and_eq_true, beq_iff_eq, not_and]
      intro henv
      exact key_unique db h vr hmem w hw
        (fun hid => hwid (beq_iff_eq.mpr hid)) henv
  · intro env body2
    cases hb2 : body2.description with
    | none => simp [patchEnvironment, hb2]
    | some d => simp [patchEnvironment, hb2]

/-- C9 witness: patching variable `OLD` with body `{name: "NEW"}` renames
it and the old URL name stops resolving. -/
theorem patch_full_body_applied_witness :
    ({ varOld with name := "NEW" } : Variable).name = "NEW"
  ∧ findVariable (patchVariable dbPatch varOld bodyRename).2
      varOld.environment_id "OLD" = none := by
  have h := patch_full_body_applied dbPatch (by decide) varOld (by decide)
    bodyRename { varOld with name := "NEW" }
    (patchVariable dbPatch varOld bodyRename).2 (by decide)
  exact ⟨h.1 "NEW" rfl, h.2.2.1 "NEW" rfl (by decide)⟩

/-- C10.  An environment whose stored name ends in `.JSON` can never be
resolved by its own exact name: the middleware strips the suffix before
lookup, so the request resolves to the environment named by the prefix or
to nothing at all. -/
theorem json_suffix_env_unreachable (db : DB) (env : Env)
    (h : endsWithJsonCI env.name = true) :
    findEnvironment db env.name ≠ some env
  ∧ ∀ e, findEnvironment db env.name = some e →
      e.name = normalizeEnvName env.name := by
  have hname : ∀ e : Env, findEnvironment db env.name = some e →
      e.name = normalizeEnvName env.name := by
    intro e he
    have he' : db.envs.find? (fun x => x.name == normalizeEnvName env.name)
        = some e := he
    have hp := List.find?_some he'
    simpa using hp
  refine ⟨?_, hname⟩
  intro hfind
  have heq : env.name = normalizeEnvName env.name := hname env hfind
  have hlen5 : 5 ≤ env.name.data.length := by
    unfold endsWithJsonCI at h
    rw [Bool.and_eq_true] at h
    exact of_decide_eq_true h.1
  have hlen : (normalizeEnvName env.name).data.length
      = env.name.data.length - 5 := by
    unfold normalizeEnvName jsToUpper stripJsonExt
    rw [if_pos h]
    simp
  have hsame := congrArg (fun s : String => s.data.length) heq
  simp only [hlen] at hsame
  omega

/-- C10 witness: `CONFIG.JSON` as a path segment resolves to the
environment named `CONFIG`, never to the one named `CONFIG.JSON`. -/
theorem json_suffix_env_unreachable_witness :
    findEnvironment dbJson "CONFIG.JSON"
      = some { id := 2, name := "CONFIG", description := none }
  ∧ findEnvironment dbJson "CONFIG.JSON" ≠ some envJson :=
  ⟨by decide, (json_suffix_env_unreachable dbJson envJson (by decide)).1⟩

end ConfigService
